import Mathlib

/-!
Verification development for the `missing_text` PDF extraction core
(`missing_text/extract/pdf.py`): the path sandbox (`validate_path`,
`SafeModeConfig`, `with_safe_mode`), the per-page extractors, the
single-document pipelines (`sync_extract_pdf`, `async_extract_pdf`) and the
directory walker (`traverse_directory`, `sync_extract_pdfs_from_directory`).

The Python backend (PyMuPDF, pytesseract, PIL, pandas) is opaque: a `Page`
records the outcome of each backend call the extractors make (text, text
blocks, embedded images, tables, vector drawings, rasterization), each as an
`Except` so that backend failures are part of the model.  Binary payloads are
carried as the already-base64-encoded transport string.  Filesystem paths are
modelled as resolved absolute component lists (Python `Path.resolve` is the
identity on them; symlinks are out of scope), and the filesystem plus the
`pymupdf.open` behaviour form a `World`.
-/

namespace MissingText

/-- Error raised by the extraction code (`PDFProcessingError`), by message
kind.  `failedWrap` models the generic `except Exception` handler of
`sync_extract_pdf`/`async_extract_pdf` that re-raises any exception — including
a `PDFProcessingError` from `validate_path` or the file-existence check — as
`PDFProcessingError("Failed to extract content from PDF: ...")`. -/
inductive PDFError where
  | accessDenied (path : List String)
  | invalidFileType (suffix : String)
  | fileNotFound (path : List String)
  | notADirectory (path : List String)
  | corrupted (msg : String)
  | failedWrap (inner : PDFError)
  deriving DecidableEq, Repr

/-- `block` tuple from `page.get_text("blocks")`: `block[:4]` is the bbox,
`block[4]` the text. -/
structure Block where
  bbox : List Int
  text : String
  deriving DecidableEq, Repr

/-- Outcome of processing one entry of `page.get_images(full=True)`:
`doc.extract_image(xref)` plus decoding/OCR/bbox retrieval.
`ok data ocr bbox`: extraction succeeded with a non-empty payload (`data` is
its base64 transport form), OCR gave `ocr`, `get_image_bbox` gave `bbox`.
`noData`: `base_image` was falsy or had no `"image"` payload (skipped with a
warning).  `valueErr bbox?`: decoding raised `ValueError`; the segment
classifier then retries `get_image_bbox` which yields `some bbox` or fails.
`fileDataErr`: `pymupdf.FileDataError`.  `otherErr`: any other exception. -/
inductive ImgOutcome where
  | ok (data : String) (ocr : String) (bbox : List Int)
  | noData
  | valueErr (bbox : Option (List Int))
  | fileDataErr
  | otherErr
  deriving DecidableEq, Repr

/-- A table found by `page.find_tables()`: its cell count, bbox, and the
DataFrame-derived record content and metadata. -/
structure Tbl where
  cells : Nat
  bbox : List Int
  content : List (List (String × String))
  columns : List String
  shape : Nat × Nat
  deriving DecidableEq, Repr

/-- One entry of `page.get_drawings()`: its item count and rect. -/
structure Drawing where
  items : Nat
  rect : List Int
  deriving DecidableEq, Repr

instance {ε α : Type} [DecidableEq ε] [DecidableEq α] : DecidableEq (Except ε α) := fun a b =>
  match a, b with
  | .ok x, .ok y => if h : x = y then .isTrue (by rw [h]) else .isFalse (by simp [h])
  | .error x, .error y => if h : x = y then .isTrue (by rw [h]) else .isFalse (by simp [h])
  | .ok _, .error _ => .isFalse (by simp)
  | .error _, .ok _ => .isFalse (by simp)

/-- A PDF page, as the outcomes of the backend calls the extractors make on
it.  `raster` is the composite `get_pixmap` → PIL → PNG → base64 step of
`_convert_page_as_image` (error, or the base64 payload). -/
structure Page where
  textE : Except String String
  blocksE : Except String (List Block)
  imagesE : Except String (List ImgOutcome)
  tablesE : Except String (List Tbl)
  drawingsE : Except String (List Drawing)
  raster : Except String String
  deriving DecidableEq, Repr

instance : Inhabited Page :=
  ⟨⟨.error "", .error "", .error "", .error "", .error "", .error ""⟩⟩

/-- A document is its list of pages (`doc[0..len(doc)-1]`). -/
abbrev Doc := List Page

/-- A filesystem entry: a directory, a file (with the result of
`pymupdf.open` on it: the document, or the error message of the
`ValueError`/`RuntimeError` a corrupt payload raises), or nothing. -/
inductive FSEntry where
  | dir
  | file (opened : Except String Doc)
  | missing
  deriving Repr

/-- `SafeModeConfig`: the process-wide sandbox configuration.  The allowed
extension set is modelled as a list with membership. -/
structure SafeModeConfig where
  enabled : Bool
  base_directory : List String
  allowed_extensions : List String
  deriving DecidableEq, Repr

/-- The world a call runs in: the sandbox configuration (the global
`SAFE_MODE_CONFIG`), the filesystem, the files `os.walk` discovers under a
directory (absolute paths), and `pymupdf.open(stream=...)` on byte inputs. -/
structure World where
  cfg : SafeModeConfig
  fs : List String → FSEntry
  walk : List String → List (List String)
  openBytes : String → Except String Doc

def isDir (fs : List String → FSEntry) (p : List String) : Bool :=
  match fs p with
  | .dir => true
  | _ => false

def isFile (fs : List String → FSEntry) (p : List String) : Bool :=
  match fs p with
  | .file _ => true
  | _ => false

/-- `pymupdf.open(str(path))` on an existing file. -/
def openFile (fs : List String → FSEntry) (p : List String) : Except String Doc :=
  match fs p with
  | .file d => d
  | _ => .error "no such file"

/-- Python `str.lower()` on a path suffix, modelled characterwise with
`Char.toLower` (they agree on ASCII, which is all an extension holds). -/
def pyLower (s : String) : String :=
  ⟨s.data.map Char.toLower⟩

/-- The final path component (`Path.name`; empty for the root). -/
def pathName (p : List String) : String :=
  (p.getLast?).getD ""

/-- Python `Path.suffix`: the part of the name from its last dot on, empty
when there is no dot, when the only dot is the leading character, or when the
dot is the final character (CPython: `name[i:]` iff `0 < i < len(name)-1`). -/
def pySuffix (name : String) : String :=
  let cs := name.data
  let idxs := (List.range cs.length).filter (fun i => cs.getD i ' ' = '.')
  match idxs.getLast? with
  | none => ""
  | some i => if 0 < i ∧ i < cs.length - 1 then ⟨cs.drop i⟩ else ""

/-- The suffix of a path is the suffix of its final component. -/
def pathSuffix (p : List String) : String :=
  pySuffix (pathName p)

/-- `validate_path(file_path, safe_mode)`: resolve (identity here, paths being
pre-resolved), and when `safe_mode` is set check containment under
`cfg.base_directory` (`Path.is_relative_to`, i.e. component-prefix), and for
non-directories additionally that the lowercased suffix is in
`cfg.allowed_extensions`.  Note the checks are gated only on the `safe_mode`
parameter; `cfg.enabled` is never read. -/
def validate_path (cfg : SafeModeConfig) (fs : List String → FSEntry)
    (p : List String) (safe_mode : Bool) : Except PDFError (List String) :=
  if safe_mode then
    if isDir fs p then
      if cfg.base_directory.isPrefixOf p then .ok p
      else .error (.accessDenied p)
    else
      if ¬ cfg.base_directory.isPrefixOf p then .error (.accessDenied p)
      else if pyLower (pathSuffix p) ∈ cfg.allowed_extensions then .ok p
      else .error (.invalidFileType (pathSuffix p))
  else .ok p

/-- Output of `_extract_text_from_page`. -/
structure TextRecord where
  page_number : Nat
  content : String
  deriving DecidableEq, Repr

/-- Output of `_extract_tables_from_page` (one per table found). -/
structure TableRecord where
  page_number : Nat
  content : List (List (String × String))
  columns : List String
  shape : Nat × Nat
  deriving DecidableEq, Repr

/-- Output of `_extract_images_from_page` (one per decodable image). -/
structure ImageRecord where
  page_number : Nat
  content : String
  image_data : String
  deriving DecidableEq, Repr

/-- Output of `_convert_page_as_image`; the `error` key is present only on
rasterization failure. -/
structure PageImageRecord where
  page_number : Nat
  image : Option String
  error : Option String := none
  deriving DecidableEq, Repr

instance : Inhabited PageImageRecord := ⟨⟨0, none, none⟩⟩

/-- One classified segment; `image_data` is present only for decodable
embedded images. -/
structure Segment where
  type : String
  content : String
  bbox : List Int
  image_data : Option String := none
  deriving DecidableEq, Repr

/-- Output of `_extract_segments_from_page`. -/
structure PageSegments where
  page_number : Nat
  segments : List Segment
  deriving DecidableEq, Repr

/-- `_extract_text_from_page`: one record per page; on backend failure the
content is the page-scoped placeholder string. -/
def extract_text_from_page (page : Page) (page_num : Nat) : TextRecord :=
  match page.textE with
  | .ok t => ⟨page_num + 1, t⟩
  | .error _ => ⟨page_num + 1, s!"Error: Unable to extract text from page {page_num + 1}"⟩

/-- `_extract_tables_from_page`: one record per table; any failure for the
page yields zero records. -/
def extract_tables_from_page (page : Page) (page_num : Nat) : List TableRecord :=
  match page.tablesE with
  | .ok tables => tables.map (fun tb => ⟨page_num + 1, tb.content, tb.columns, tb.shape⟩)
  | .error _ => []

/-- `_extract_images_from_page`: per image, a record only when extraction
gave a usable payload; every failure case is skipped (the per-image guard
catches it), and a failing `get_images` yields the images collected so far
(none). -/
def extract_images_from_page (page : Page) (page_num : Nat) : List ImageRecord :=
  match page.imagesE with
  | .error _ => []
  | .ok image_list =>
    image_list.foldl (fun acc img =>
      match img with
      | .ok data ocr _ => acc ++ [⟨page_num + 1, ocr, data⟩]
      | _ => acc) []

/-- `_convert_page_as_image`: the page raster as base64, or on failure a
record with `image=None` and an error string. -/
def convert_page_as_image (page : Page) (page_num : Nat) : PageImageRecord :=
  match page.raster with
  | .ok b => ⟨page_num + 1, some b, none⟩
  | .error _ => ⟨page_num + 1, none, some s!"Error converting page {page_num + 1} to image"⟩

/-- The fixed LaTeX-like markers of the segment classifier. -/
def latex_patterns : List String :=
  ["\\begin\x7bequation\x7d", "\\end\x7bequation\x7d", "\\frac\x7b", "\\sum_"]

/-- `pat` occurs as a contiguous run inside `hay`. -/
def containsSub (pat : List Char) : List Char → Bool
  | [] => pat.isPrefixOf []
  | c :: t => pat.isPrefixOf (c :: t) || containsSub pat t

/-- Python `pattern in s`: substring containment. -/
def strContains (s pat : String) : Bool :=
  containsSub pat.data s.data

/-- Whether a text block matches any LaTeX-like marker. -/
def containsAnyLatex (s : String) : Bool :=
  latex_patterns.any (fun p => strContains s p)

/-- Segments contributed by one entry of the image stage of
`_extract_segments_from_page` (per-image guard: decodable images give an
`image` segment with payload; a `ValueError` with a recoverable bbox gives a
degraded `image` segment; everything else is skipped). -/
def imgSegs (img : ImgOutcome) : List Segment :=
  match img with
  | .ok data ocr bbox => [⟨"image", ocr, bbox, some data⟩]
  | .valueErr (some bbox) => [⟨"image", "Image data not available", bbox, none⟩]
  | _ => []

/-- `_extract_segments_from_page`: the five classification stages run inside
one `try`, so a failing backend call ends the scan and the segments
accumulated so far are returned.  Stage 5 re-scans the stage-1 text blocks
for LaTeX-like markers. -/
def extract_segments_from_page (page : Page) (page_num : Nat) : PageSegments :=
  match page.blocksE with
  | .error _ => ⟨page_num + 1, []⟩
  | .ok text_blocks =>
    let segs1 := text_blocks.map (fun b =>
      ({ type := "text", content := b.text, bbox := b.bbox } : Segment))
    match page.imagesE with
    | .error _ => ⟨page_num + 1, segs1⟩
    | .ok image_list =>
      let segs2 := segs1 ++ (image_list.map imgSegs).flatten
      match page.tablesE with
      | .error _ => ⟨page_num + 1, segs2⟩
      | .ok tables =>
        let segs3 := segs2 ++ tables.map (fun tb =>
          ({ type := "table", content := s!"Table ({tb.cells} cells)", bbox := tb.bbox } : Segment))
        match page.drawingsE with
        | .error _ => ⟨page_num + 1, segs3⟩
        | .ok drawings =>
          let segs4 := segs3 ++ (drawings.filter (fun d => d.items > 10)).map (fun d =>
            ({ type := "chart", content := "Possible chart", bbox := d.rect } : Segment))
          let segs5 := segs4 ++ (text_blocks.filter (fun b => containsAnyLatex b.text)).map (fun b =>
            ({ type := "latex", content := b.text, bbox := b.bbox } : Segment))
          ⟨page_num + 1, segs5⟩

/-- `DocumentResult`: the extraction dict; a `none` field is an absent key. -/
structure DocumentResult where
  text : Option (List TextRecord) := none
  tables : Option (List TableRecord) := none
  images : Option (List ImageRecord) := none
  pages : Option (List PageImageRecord) := none
  segments : Option (List PageSegments) := none
  deriving DecidableEq, Repr

/-- `dict.setdefault(key, []).append(x)`. -/
def appendOpt {α : Type} (o : Option (List α)) (x : α) : Option (List α) :=
  some (o.getD [] ++ [x])

/-- `dict.setdefault(key, []).extend(xs)`. -/
def extendOpt {α : Type} (o : Option (List α)) (xs : List α) : Option (List α) :=
  some (o.getD [] ++ xs)

/-- The body of the page loop of `sync_extract_pdf`: fetch `doc[page_num]`
and, per enabled flag, setdefault-and-append (or -extend) the extractor's
output. -/
def syncStep (doc : Doc) (text table image encode_page segment : Bool)
    (acc : DocumentResult) (page_num : Nat) : DocumentResult :=
  let page := doc.getD page_num default
  let acc := if text then
    { acc with text := appendOpt acc.text (extract_text_from_page page page_num) } else acc
  let acc := if table then
    { acc with tables := extendOpt acc.tables (extract_tables_from_page page page_num) } else acc
  let acc := if image then
    { acc with images := extendOpt acc.images (extract_images_from_page page page_num) } else acc
  let acc := if encode_page then
    { acc with pages := appendOpt acc.pages (convert_page_as_image page page_num) } else acc
  let acc := if segment then
    { acc with segments := appendOpt acc.segments (extract_segments_from_page page page_num) } else acc
  acc

/-- The page loop of `sync_extract_pdf`: `for page_num in range(total_pages)`
over an empty starting dict. -/
def syncLoop (doc : Doc) (text table image encode_page segment : Bool) : DocumentResult :=
  (List.range doc.length).foldl (syncStep doc text table image encode_page segment) {}

/-- The input of single-document extraction: in-memory bytes or a path. -/
inductive PDFInput where
  | bytes (b : String)
  | path (p : List String)
  deriving Repr

/-- The undecorated body of `sync_extract_pdf`.  Its `safe_mode` parameter
(default `true`) gates `validate_path`; the whole body runs in a `try` whose
generic handler wraps any `PDFProcessingError` raised inside — from
validation or from the file-existence check — as `failedWrap`, while
`ValueError`/`RuntimeError` from `pymupdf.open` surface as `corrupted`. -/
def sync_extract_pdf_inner (w : World) (input_data : PDFInput) (safe_mode : Bool)
    (text table image encode_page segment : Bool) : Except PDFError DocumentResult :=
  match input_data with
  | .bytes b =>
    match w.openBytes b with
    | .error e => .error (.corrupted e)
    | .ok doc => .ok (syncLoop doc text table image encode_page segment)
  | .path p =>
    match validate_path w.cfg w.fs p safe_mode with
    | .error e => .error (.failedWrap e)
    | .ok file_path =>
      if ¬ isFile w.fs file_path then .error (.failedWrap (.fileNotFound file_path))
      else match openFile w.fs file_path with
        | .error e => .error (.corrupted e)
        | .ok doc => .ok (syncLoop doc text table image encode_page segment)

/-- `sync_extract_pdf` as decorated by `with_safe_mode`: the wrapper consumes
the caller's `safe_mode` keyword, overwrites the global `enabled` flag with
it, calls the inner function — whose own `safe_mode` parameter therefore
keeps its default `true` — and restores `enabled` in a `finally`.  Returns
the call's result together with the global configuration after the call. -/
def sync_extract_pdf (w : World) (input_data : PDFInput) (safe_mode : Bool)
    (text table image encode_page segment : Bool) :
    Except PDFError DocumentResult × SafeModeConfig :=
  let original_safe_mode := w.cfg.enabled
  let cfg1 := { w.cfg with enabled := safe_mode }
  let r := sync_extract_pdf_inner { w with cfg := cfg1 } input_data true
    text table image encode_page segment
  (r, { cfg1 with enabled := original_safe_mode })

/-- The body of the page loop of `async_extract_pdf`; identical to the sync
loop body (the trailing `await asyncio.sleep(0)` yields control and has no
effect on the value). -/
def asyncStep (doc : Doc) (text table image encode_page segment : Bool)
    (acc : DocumentResult) (page_num : Nat) : DocumentResult :=
  let page := doc.getD page_num default
  let acc := if text then
    { acc with text := appendOpt acc.text (extract_text_from_page page page_num) } else acc
  let acc := if table then
    { acc with tables := extendOpt acc.tables (extract_tables_from_page page page_num) } else acc
  let acc := if image then
    { acc with images := extendOpt acc.images (extract_images_from_page page page_num) } else acc
  let acc := if encode_page then
    { acc with pages := appendOpt acc.pages (convert_page_as_image page page_num) } else acc
  let acc := if segment then
    { acc with segments := appendOpt acc.segments (extract_segments_from_page page page_num) } else acc
  acc

/-- `async_extract_pdf`: undecorated, so the caller's `safe_mode` reaches
`validate_path` directly; otherwise the same pipeline as the sync one. -/
def async_extract_pdf (w : World) (input_data : PDFInput) (safe_mode : Bool)
    (text table image encode_page segment : Bool) : Except PDFError DocumentResult :=
  match input_data with
  | .bytes b =>
    match w.openBytes b with
    | .error e => .error (.corrupted e)
    | .ok doc => .ok ((List.range doc.length).foldl
        (asyncStep doc text table image encode_page segment) {})
  | .path p =>
    match validate_path w.cfg w.fs p safe_mode with
    | .error e => .error (.failedWrap e)
    | .ok file_path =>
      if ¬ isFile w.fs file_path then .error (.failedWrap (.fileNotFound file_path))
      else match openFile w.fs file_path with
        | .error e => .error (.corrupted e)
        | .ok doc => .ok ((List.range doc.length).foldl
            (asyncStep doc text table image encode_page segment) {})

/-- `Path.relative_to`: drop the base prefix, or raise `ValueError`. -/
def relativeTo (p base : List String) : Except String (List String) :=
  if base.isPrefixOf p then .ok (p.drop base.length) else .error "not a subpath"

/-- `str(path)` for a relative path: components joined with `/`. -/
def pathStr (p : List String) : String :=
  String.intercalate "/" p

/-- `traverse_directory`: validate the root (raising on failure), require it
to be a directory, then validate every walked file individually, skipping —
with a warning — any that fails. -/
def traverse_directory (w : World) (directory_path : List String) (safe_mode : Bool) :
    Except PDFError (List (List String)) :=
  match validate_path w.cfg w.fs directory_path safe_mode with
  | .error e => .error e
  | .ok directory =>
    if ¬ isDir w.fs directory then .error (.notADirectory directory)
    else .ok ((w.walk directory).foldl (fun valid_files f =>
      match validate_path w.cfg w.fs f safe_mode with
      | .ok file_path => valid_files ++ [file_path]
      | .error _ => valid_files) [])

/-- `sync_extract_pdfs_from_directory`: validate the root, walk it, and for
each valid file run `sync_extract_pdf` (whose decorator consumes the
forwarded `safe_mode`), keying the result by the path relative to the
original `directory_path` argument; any per-file exception — processing
failure or a `relative_to` `ValueError` — is caught and the file omitted. -/
def sync_extract_pdfs_from_directory (w : World) (directory_path : List String)
    (safe_mode : Bool) (text table image encode_page segment : Bool) :
    Except PDFError (List (String × DocumentResult)) :=
  match validate_path w.cfg w.fs directory_path safe_mode with
  | .error e => .error e
  | .ok directory =>
    if ¬ isDir w.fs directory then .error (.notADirectory directory)
    else match traverse_directory w directory_path safe_mode with
      | .error e => .error e
      | .ok files => .ok (files.foldl (fun extracted_data file_path =>
          match (sync_extract_pdf w (.path file_path) safe_mode
              text table image encode_page segment).1 with
          | .ok extracted_content =>
            match relativeTo file_path directory_path with
            | .ok rel => extracted_data ++ [(pathStr rel, extracted_content)]
            | .error _ => extracted_data
          | .error _ => extracted_data) [])

/-! ### Supporting lemmas -/

theorem foldl_proj_append {σ β : Type} (step : σ → Nat → σ) (proj : σ → Option (List β))
    (f : Nat → β) (h : ∀ acc i, proj (step acc i) = appendOpt (proj acc) (f i)) :
    ∀ (l : List Nat) (acc : σ), l ≠ [] →
      proj (l.foldl step acc) = some ((proj acc).getD [] ++ l.map f) := by
  intro l
  induction l with
  | nil => intro acc hne; exact absurd rfl hne
  | cons i is ih =>
    intro acc _
    cases is with
    | nil => simp [h, appendOpt]
    | cons j js =>
      rw [List.foldl_cons, ih _ (by simp), h]
      simp [appendOpt]

theorem foldl_proj_extend {σ β : Type} (step : σ → Nat → σ) (proj : σ → Option (List β))
    (f : Nat → List β) (h : ∀ acc i, proj (step acc i) = extendOpt (proj acc) (f i)) :
    ∀ (l : List Nat) (acc : σ), l ≠ [] →
      proj (l.foldl step acc) = some ((proj acc).getD [] ++ (l.map f).flatten) := by
  intro l
  induction l with
  | nil => intro acc hne; exact absurd rfl hne
  | cons i is ih =>
    intro acc _
    cases is with
    | nil => simp [h, extendOpt]
    | cons j js =>
      rw [List.foldl_cons, ih _ (by simp), h]
      simp [extendOpt]

theorem foldl_proj_id {σ β : Type} (step : σ → Nat → σ) (proj : σ → Option (List β))
    (h : ∀ acc i, proj (step acc i) = proj acc) :
    ∀ (l : List Nat) (acc : σ), proj (l.foldl step acc) = proj acc := by
  intro l
  induction l with
  | nil => intro acc; rfl
  | cons i is ih => intro acc; rw [List.foldl_cons, ih, h]

theorem syncStep_text_true (doc : Doc) (tb im ep sg : Bool) (acc : DocumentResult) (i : Nat) :
    (syncStep doc true tb im ep sg acc i).text
      = appendOpt acc.text (extract_text_from_page (doc.getD i default) i) := by
  cases tb <;> cases im <;> cases ep <;> cases sg <;> simp [syncStep]

theorem syncStep_text_false (doc : Doc) (tb im ep sg : Bool) (acc : DocumentResult) (i : Nat) :
    (syncStep doc false tb im ep sg acc i).text = acc.text := by
  cases tb <;> cases im <;> cases ep <;> cases sg <;> simp [syncStep]

theorem syncStep_tables_true (doc : Doc) (t im ep sg : Bool) (acc : DocumentResult) (i : Nat) :
    (syncStep doc t true im ep sg acc i).tables
      = extendOpt acc.tables (extract_tables_from_page (doc.getD i default) i) := by
  cases t <;> cases im <;> cases ep <;> cases sg <;> simp [syncStep]

theorem syncStep_tables_false (doc : Doc) (t im ep sg : Bool) (acc : DocumentResult) (i : Nat) :
    (syncStep doc t false im ep sg acc i).tables = acc.tables := by
  cases t <;> cases im <;> cases ep <;> cases sg <;> simp [syncStep]

theorem syncStep_images_true (doc : Doc) (t tb ep sg : Bool) (acc : DocumentResult) (i : Nat) :
    (syncStep doc t tb true ep sg acc i).images
      = extendOpt acc.images (extract_images_from_page (doc.getD i default) i) := by
  cases t <;> cases tb <;> cases ep <;> cases sg <;> simp [syncStep]

theorem syncStep_images_false (doc : Doc) (t tb ep sg : Bool) (acc : DocumentResult) (i : Nat) :
    (syncStep doc t tb false ep sg acc i).images = acc.images := by
  cases t <;> cases tb <;> cases ep <;> cases sg <;> simp [syncStep]

theorem syncStep_pages_true (doc : Doc) (t tb im sg : Bool) (acc : DocumentResult) (i : Nat) :
    (syncStep doc t tb im true sg acc i).pages
      = appendOpt acc.pages (convert_page_as_image (doc.getD i default) i) := by
  cases t <;> cases tb <;> cases im <;> cases sg <;> simp [syncStep]

theorem syncStep_pages_false (doc : Doc) (t tb im sg : Bool) (acc : DocumentResult) (i : Nat) :
    (syncStep doc t tb im false sg acc i).pages = acc.pages := by
  cases t <;> cases tb <;> cases im <;> cases sg <;> simp [syncStep]

theorem syncStep_segments_true (doc : Doc) (t tb im ep : Bool) (acc : DocumentResult) (i : Nat) :
    (syncStep doc t tb im ep true acc i).segments
      = appendOpt acc.segments (extract_segments_from_page (doc.getD i default) i) := by
  cases t <;> cases tb <;> cases im <;> cases ep <;> simp [syncStep]

theorem syncStep_segments_false (doc : Doc) (t tb im ep : Bool) (acc : DocumentResult) (i : Nat) :
    (syncStep doc t tb im ep false acc i).segments = acc.segments := by
  cases t <;> cases tb <;> cases im <;> cases ep <;> simp [syncStep]

theorem syncLoop_nil (t tb im ep sg : Bool) : syncLoop [] t tb im ep sg = {} := rfl

theorem range_length_ne_nil {doc : Doc} (h : doc ≠ []) : List.range doc.length ≠ [] := by
  simpa [List.range_eq_nil] using h

theorem syncLoop_text_some (doc : Doc) (tb im ep sg : Bool) (h : doc ≠ []) :
    (syncLoop doc true tb im ep sg).text
      = some ((List.range doc.length).map
          (fun i => extract_text_from_page (doc.getD i default) i)) := by
  have := foldl_proj_append (syncStep doc true tb im ep sg) DocumentResult.text
    (fun i => extract_text_from_page (doc.getD i default) i)
    (fun acc i => syncStep_text_true doc tb im ep sg acc i)
    (List.range doc.length) {} (range_length_ne_nil h)
  simpa [syncLoop] using this

theorem syncLoop_text_none (doc : Doc) (tb im ep sg : Bool) :
    (syncLoop doc false tb im ep sg).text = none := by
  have := foldl_proj_id (syncStep doc false tb im ep sg) DocumentResult.text
    (fun acc i => syncStep_text_false doc tb im ep sg acc i)
    (List.range doc.length) {}
  simpa [syncLoop] using this

theorem syncLoop_tables_some (doc : Doc) (t im ep sg : Bool) (h : doc ≠ []) :
    (syncLoop doc t true im ep sg).tables
      = some (((List.range doc.length).map
          (fun i => extract_tables_from_page (doc.getD i default) i)).flatten) := by
  have := foldl_proj_extend (syncStep doc t true im ep sg) DocumentResult.tables
    (fun i => extract_tables_from_page (doc.getD i default) i)
    (fun acc i => syncStep_tables_true doc t im ep sg acc i)
    (List.range doc.length) {} (range_length_ne_nil h)
  simpa [syncLoop] using this

theorem syncLoop_tables_none (doc : Doc) (t im ep sg : Bool) :
    (syncLoop doc t false im ep sg).tables = none := by
  have := foldl_proj_id (syncStep doc t false im ep sg) DocumentResult.tables
    (fun acc i => syncStep_tables_false doc t im ep sg acc i)
    (List.range doc.length) {}
  simpa [syncLoop] using this

theorem syncLoop_images_some (doc : Doc) (t tb ep sg : Bool) (h : doc ≠ []) :
    (syncLoop doc t tb true ep sg).images
      = some (((List.range doc.length).map
          (fun i => extract_images_from_page (doc.getD i default) i)).flatten) := by
  have := foldl_proj_extend (syncStep doc t tb true ep sg) DocumentResult.images
    (fun i => extract_images_from_page (doc.getD i default) i)
    (fun acc i => syncStep_images_true doc t tb ep sg acc i)
    (List.range doc.length) {} (range_length_ne_nil h)
  simpa [syncLoop] using this

theorem syncLoop_images_none (doc : Doc) (t tb ep sg : Bool) :
    (syncLoop doc t tb false ep sg).images = none := by
  have := foldl_proj_id (syncStep doc t tb false ep sg) DocumentResult.images
    (fun acc i => syncStep_images_false doc t tb ep sg acc i)
    (List.range doc.length) {}
  simpa [syncLoop] using this

theorem syncLoop_pages_some (doc : Doc) (t tb im sg : Bool) (h : doc ≠ []) :
    (syncLoop doc t tb im true sg).pages
      = some ((List.range doc.length).map
          (fun i => convert_page_as_image (doc.getD i default) i)) := by
  have := foldl_proj_append (syncStep doc t tb im true sg) DocumentResult.pages
    (fun i => convert_page_as_image (doc.getD i default) i)
    (fun acc i => syncStep_pages_true doc t tb im sg acc i)
    (List.range doc.length) {} (range_length_ne_nil h)
  simpa [syncLoop] using this

theorem syncLoop_pages_none (doc : Doc) (t tb im sg : Bool) :
    (syncLoop doc t tb im false sg).pages = none := by
  have := foldl_proj_id (syncStep doc t tb im false sg) DocumentResult.pages
    (fun acc i => syncStep_pages_false doc t tb im sg acc i)
    (List.range doc.length) {}
  simpa [syncLoop] using this

theorem syncLoop_segments_some (doc : Doc) (t tb im ep : Bool) (h : doc ≠ []) :
    (syncLoop doc t tb im ep true).segments
      = some ((List.range doc.length).map
          (fun i => extract_segments_from_page (doc.getD i default) i)) := by
  have := foldl_proj_append (syncStep doc t tb im ep true) DocumentResult.segments
    (fun i => extract_segments_from_page (doc.getD i default) i)
    (fun acc i => syncStep_segments_true doc t tb im ep acc i)
    (List.range doc.length) {} (range_length_ne_nil h)
  simpa [syncLoop] using this

theorem syncLoop_segments_none (doc : Doc) (t tb im ep : Bool) :
    (syncLoop doc t tb im ep false).segments = none := by
  have := foldl_proj_id (syncStep doc t tb im ep false) DocumentResult.segments
    (fun acc i => syncStep_segments_false doc t tb im ep acc i)
    (List.range doc.length) {}
  simpa [syncLoop] using this

/-- Whether a string holds at least one ASCII uppercase letter. -/
def containsUpperAscii (s : String) : Bool :=
  s.data.any (fun c => decide (65 ≤ c.toNat) && decide (c.toNat ≤ 90))

theorem toLower_not_upperAscii (c : Char) :
    (65 ≤ (Char.toLower c).toNat ∧ (Char.toLower c).toNat ≤ 90) → False := by
  unfold Char.toLower
  simp only []
  by_cases hc : c.toNat ≥ 65 ∧ c.toNat ≤ 90
  · rw [if_pos hc]
    intro h
    have hv : (c.toNat + 32).isValidChar := by
      unfold Nat.isValidChar
      left
      omega
    rw [Char.ofNat, dif_pos hv] at h
    rw [show (Char.ofNatAux (c.toNat + 32) hv).toNat = c.toNat + 32 by
      simp [Char.ofNatAux, Char.toNat, UInt32.toNat]] at h
    omega
  · rw [if_neg hc]
    intro h
    rw [Decidable.not_and_iff_or_not] at hc
    rcases hc with hc | hc <;> omega

theorem containsUpperAscii_pyLower (s : String) : containsUpperAscii (pyLower s) = false := by
  unfold containsUpperAscii pyLower
  rw [List.any_eq_false]
  intro c hc
  rw [List.mem_map] at hc
  obtain ⟨c', -, rfl⟩ := hc
  simp only [Bool.and_eq_true, decide_eq_true_eq, not_and]
  intro h1 h2
  exact toLower_not_upperAscii c' ⟨h1, h2⟩

theorem pyLower_ne_of_upper {s e : String} (h : containsUpperAscii e = true) :
    pyLower s ≠ e := by
  intro hEq
  rw [← hEq, containsUpperAscii_pyLower] at h
  exact Bool.false_ne_true h

/-! ### Concrete worlds used as witnesses and counterexamples -/

/-- A filesystem with the sandbox base `base/`, a file inside it and a file
outside it. -/
def fsA : List String → FSEntry := fun p =>
  if p = ["base"] then .dir
  else if p = ["base", "a.pdf"] then .file (.ok [])
  else if p = ["etc", "doc.pdf"] then .file (.ok [])
  else .missing

/-- A world whose sandbox base directory is `base/`, allowing only `.pdf`. -/
def wA : World :=
  { cfg := { enabled := true, base_directory := ["base"], allowed_extensions := [".pdf"] }
    fs := fsA
    walk := fun _ => []
    openBytes := fun _ => .error "not a pdf" }

/-! ### Claims -/

/-- C1: the spec says that with `safe_mode=false` no containment or extension
check runs at any public entry point, `sync_extract_pdf` included, so
extraction of a path outside the base directory succeeds.  The code violates
this: the `with_safe_mode` wrapper consumes the `safe_mode` keyword without
forwarding it, the inner function therefore calls `validate_path` with its
own defaulted `safe_mode=True`, and `validate_path` never reads the global
`enabled` flag the wrapper set — so `sync_extract_pdf` on a path outside the
base directory fails with the access error even with `safe_mode=false`,
while the undecorated `async_extract_pdf` on the same input succeeds. -/
theorem safe_mode_false_still_validates_sync_extract_pdf :
    (sync_extract_pdf wA (.path ["etc", "doc.pdf"]) false true true true true true).1
      = .error (.failedWrap (.accessDenied ["etc", "doc.pdf"]))
    ∧ async_extract_pdf wA (.path ["etc", "doc.pdf"]) false true true true true true
      = .ok {} := by
  exact ⟨by decide, by decide⟩

/-- C3 counterexample: blocking and cooperative extraction are not
structurally identical on every input and flag combination — on a path
outside the base directory with `safe_mode=false`, the blocking call fails
(its decorator never forwards `safe_mode`) while the cooperative call
succeeds. -/
theorem sync_async_differ_on_unsandboxed_path :
    (sync_extract_pdf wA (.path ["etc", "doc.pdf"]) false true true true true true).1
      ≠ async_extract_pdf wA (.path ["etc", "doc.pdf"]) false true true true true true := by
  decide

/-- C3 (amended): for bytes input, and for path input whenever
`safe_mode=true`, the blocking and cooperative single-document extractions
return structurally identical results — scheduling changes nothing in the
output. -/
theorem sync_async_extract_agree (w : World) (input : PDFInput) (sm t tb im ep sg : Bool)
    (h : match input with | .bytes _ => True | .path _ => sm = true) :
    (sync_extract_pdf w input sm t tb im ep sg).1
      = async_extract_pdf w input sm t tb im ep sg := by
  cases input with
  | bytes b => rfl
  | path p =>
    simp only [] at h
    subst h
    rfl

/-- C3 witness: the agreement theorem at a concrete bytes input. -/
theorem sync_async_extract_agree_witness :
    (sync_extract_pdf wA (.bytes "x") false true true true true true).1
      = async_extract_pdf wA (.bytes "x") false true true true true true :=
  sync_async_extract_agree wA (.bytes "x") false true true true true true trivial

/-- C9: the sandbox extension check compares the lowercased file suffix
against the allow-set, so a file whose suffix is `.PDF` passes when `.pdf`
is allowed, while an allow-set whose entries all hold an ASCII uppercase
letter matches no file at all. -/
theorem extension_check_case_insensitive (cfg : SafeModeConfig)
    (fs : List String → FSEntry) (p : List String)
    (hdir : isDir fs p = false) (hpre : cfg.base_directory.isPrefixOf p = true) :
    (pathSuffix p = ".PDF" → ".pdf" ∈ cfg.allowed_extensions →
      validate_path cfg fs p true = .ok p)
    ∧ ((∀ e ∈ cfg.allowed_extensions, containsUpperAscii e = true) →
      validate_path cfg fs p true = .error (.invalidFileType (pathSuffix p))) := by
  constructor
  · intro hs hm
    unfold validate_path
    rw [hs]
    simp [hdir, hpre, hm, show pyLower ".PDF" = ".pdf" from by decide]
  · intro hall
    have hnm : pyLower (pathSuffix p) ∉ cfg.allowed_extensions := fun hmem =>
      pyLower_ne_of_upper (hall _ hmem) rfl
    unfold validate_path
    simp [hdir, hpre, hnm]

/-- A sandbox allowing only the uppercase entry `.PDF`. -/
def cfgUpper : SafeModeConfig := ⟨true, [], [".PDF"]⟩

/-- A sandbox allowing only `.pdf`. -/
def cfgLower : SafeModeConfig := ⟨true, [], [".pdf"]⟩

/-- An empty filesystem. -/
def fsEmpty : List String → FSEntry := fun _ => .missing

/-- C9 witness: `Doc.PDF` passes validation under the `.pdf` allow-set and
fails under the `.PDF` allow-set. -/
theorem extension_check_case_insensitive_witness :
    validate_path cfgLower fsEmpty ["Doc.PDF"] true = .ok ["Doc.PDF"]
    ∧ validate_path cfgUpper fsEmpty ["Doc.PDF"] true
      = .error (.invalidFileType ".PDF") := by
  constructor
  · exact (extension_check_case_insensitive cfgLower fsEmpty ["Doc.PDF"]
      (by decide) (by decide)).1 (by decide) (by decide)
  · have h := (extension_check_case_insensitive cfgUpper fsEmpty ["Doc.PDF"]
      (by decide) (by decide)).2 (by decide)
    rw [show pathSuffix ["Doc.PDF"] = ".PDF" from by decide] at h
    exact h

/-- C10: over any call of the decorated blocking extraction — returning
normally or raising — the process-wide sandbox configuration after the call
equals its value before it: the wrapper overwrites `enabled` for the call's
duration and restores it in its `finally`, and no other field is touched. -/
theorem sync_extract_pdf_preserves_config (w : World) (input : PDFInput)
    (sm t tb im ep sg : Bool) :
    (sync_extract_pdf w input sm t tb im ep sg).2 = w.cfg := rfl

/-- A page on which every backend call succeeds (no blocks, images, tables
or drawings). -/
def pgOk : Page :=
  { textE := .ok "hello", blocksE := .ok [], imagesE := .ok [], tablesE := .ok []
    drawingsE := .ok [], raster := .ok "png64" }

/-- A page on which every backend call fails. -/
def pgBad : Page :=
  { textE := .error "t", blocksE := .error "b", imagesE := .error "i"
    tablesE := .error "tb", drawingsE := .error "d", raster := .error "r" }

/-- A world whose byte inputs open as a 2-page document (second page all
failing), a 0-page document, or fail to open. -/
def wDocs : World :=
  { cfg := { enabled := true, base_directory := ["base"], allowed_extensions := [".pdf"] }
    fs := fsEmpty
    walk := fun _ => []
    openBytes := fun b =>
      if b = "good" then .ok [pgOk, pgBad]
      else if b = "empty" then .ok []
      else .error "oops" }

/-- C2 counterexample: a 0-page document extracted with every flag enabled
returns the empty mapping — the enabled flags' keys are absent, because the
page loop (which `setdefault`s the keys) never runs. -/
theorem zero_page_doc_drops_enabled_keys :
    (sync_extract_pdf wDocs (.bytes "empty") true true true true true true).1
      = .ok { text := none, tables := none, images := none, pages := none, segments := none } := by
  decide

/-- C2 (amended): extraction of an openable document returns the merged
result; for a document with at least one page its keys are exactly those of
the enabled flags (never more, never fewer), while a zero-page document
yields the empty mapping whatever the flags. -/
theorem document_result_keys_match_flags (w : World) (b : String) (doc : Doc)
    (sm t tb im ep sg : Bool) (h : w.openBytes b = .ok doc) :
    (sync_extract_pdf w (.bytes b) sm t tb im ep sg).1 = .ok (syncLoop doc t tb im ep sg)
    ∧ (doc = [] → syncLoop doc t tb im ep sg = {})
    ∧ (doc ≠ [] →
        (syncLoop doc t tb im ep sg).text.isSome = t
        ∧ (syncLoop doc t tb im ep sg).tables.isSome = tb
        ∧ (syncLoop doc t tb im ep sg).images.isSome = im
        ∧ (syncLoop doc t tb im ep sg).pages.isSome = ep
        ∧ (syncLoop doc t tb im ep sg).segments.isSome = sg) := by
  refine ⟨?_, ?_, ?_⟩
  · simp [sync_extract_pdf, sync_extract_pdf_inner, h]
  · rintro rfl; rfl
  · intro hne
    refine ⟨?_, ?_, ?_, ?_, ?_⟩
    · cases t
      · simp [syncLoop_text_none]
      · simp [syncLoop_text_some doc tb im ep sg hne]
    · cases tb
      · simp [syncLoop_tables_none]
      · simp [syncLoop_tables_some doc t im ep sg hne]
    · cases im
      · simp [syncLoop_images_none]
      · simp [syncLoop_images_some doc t tb ep sg hne]
    · cases ep
      · simp [syncLoop_pages_none]
      · simp [syncLoop_pages_some doc t tb im sg hne]
    · cases sg
      · simp [syncLoop_segments_none]
      · simp [syncLoop_segments_some doc t tb im ep hne]

/-- C2 witness: the key/flag correspondence evaluated on a concrete 2-page
document with flags `text` and `pages` enabled and the rest disabled. -/
theorem document_result_keys_match_flags_witness :
    (sync_extract_pdf wDocs (.bytes "good") true true false false true false).1
      = .ok (syncLoop [pgOk, pgBad] true false false true false)
    ∧ (syncLoop [pgOk, pgBad] true false false true false).text.isSome = true
    ∧ (syncLoop [pgOk, pgBad] true false false true false).tables.isSome = false
    ∧ (syncLoop [pgOk, pgBad] true false false true false).images.isSome = false
    ∧ (syncLoop [pgOk, pgBad] true false false true false).pages.isSome = true
    ∧ (syncLoop [pgOk, pgBad] true false false true false).segments.isSome = false := by
  have h := document_result_keys_match_flags wDocs "good" [pgOk, pgBad]
    true true false false true false (by decide)
  have h3 := h.2.2 (by decide)
  exact ⟨h.1, h3.1, h3.2.1, h3.2.2.1, h3.2.2.2.1, h3.2.2.2.2⟩

theorem convert_page_as_image_page_number (pg : Page) (i : Nat) :
    (convert_page_as_image pg i).page_number = i + 1 := by
  cases h : pg.raster <;> simp [convert_page_as_image, h]

theorem convert_page_as_image_of_error (pg : Page) (i : Nat) (e : String)
    (he : pg.raster = .error e) :
    (convert_page_as_image pg i).image = none
    ∧ (convert_page_as_image pg i).error ≠ none := by
  simp [convert_page_as_image, he]

theorem validate_path_enabled_irrel (e' : Bool) (cfg : SafeModeConfig)
    (fs : List String → FSEntry) (p : List String) (s : Bool) :
    validate_path ⟨e', cfg.base_directory, cfg.allowed_extensions⟩ fs p s
      = validate_path cfg fs p s := rfl

theorem syncLoop_pages_getD (doc : Doc) (t tb im sg : Bool) (i : Nat) (hi : i < doc.length) :
    ((syncLoop doc t tb im true sg).pages.getD []).getD i default
      = convert_page_as_image (doc.getD i default) i := by
  have hd : doc ≠ [] := by
    intro h
    subst h
    simp at hi
  rw [syncLoop_pages_some doc t tb im sg hd]
  simp only [Option.getD_some]
  rw [List.getD_eq_getElem _ _ (by simpa using hi)]
  simp [hi]

/-- C4: with `encode_page=true`, an N-page document's `pages` collection has
exactly N entries with sequential `page_number` values 1..N, and a page
whose rasterization fails still contributes its one record, with
`image=None` and an error string. -/
theorem pages_collection_complete (w : World) (b : String) (doc : Doc)
    (sm t tb im sg : Bool) (h : w.openBytes b = .ok doc) :
    (sync_extract_pdf w (.bytes b) sm t tb im true sg).1 = .ok (syncLoop doc t tb im true sg)
    ∧ ((syncLoop doc t tb im true sg).pages.getD []).length = doc.length
    ∧ (∀ i, i < doc.length →
        (((syncLoop doc t tb im true sg).pages.getD []).getD i default).page_number = i + 1
        ∧ ∀ e, (doc.getD i default).raster = .error e →
            (((syncLoop doc t tb im true sg).pages.getD []).getD i default).image = none
            ∧ (((syncLoop doc t tb im true sg).pages.getD []).getD i default).error ≠ none) := by
  refine ⟨?_, ?_, ?_⟩
  · simp [sync_extract_pdf, sync_extract_pdf_inner, h]
  · by_cases hd : doc = []
    · subst hd
      rfl
    · rw [syncLoop_pages_some doc t tb im sg hd]
      simp
  · intro i hi
    rw [syncLoop_pages_getD doc t tb im sg i hi]
    refine ⟨convert_page_as_image_page_number _ i, ?_⟩
    intro e he
    exact convert_page_as_image_of_error _ i e he

/-- C4 witness: on the concrete 2-page document whose second page fails to
rasterize, the `pages` list has 2 entries, the failing page's record has
`page_number` 2, `image=None` and an error string. -/
theorem pages_collection_complete_witness :
    (sync_extract_pdf wDocs (.bytes "good") true true true true true true).1
      = .ok (syncLoop [pgOk, pgBad] true true true true true)
    ∧ ((syncLoop [pgOk, pgBad] true true true true true).pages.getD []).length = 2
    ∧ (((syncLoop [pgOk, pgBad] true true true true true).pages.getD []).getD 1 default).page_number = 2
    ∧ (((syncLoop [pgOk, pgBad] true true true true true).pages.getD []).getD 1 default).image = none
    ∧ (((syncLoop [pgOk, pgBad] true true true true true).pages.getD []).getD 1 default).error ≠ none := by
  have h := pages_collection_complete wDocs "good" [pgOk, pgBad] true true true true true
    (by decide)
  have h3 := h.2.2 1 (by decide)
  have h4 := h3.2 "r" (by decide)
  exact ⟨h.1, h.2.1, h3.1, h4.1, h4.2⟩

/-- C6: the single-document pipeline raises exactly one document-processing
error when the document cannot be opened (corrupt bytes, missing file) and
returns no partial result; once a document opens, the pipeline returns a
result whatever the per-page extractor failures — every page still
contributes its text and segment records (failures never abort the page's
other extractors or subsequent pages). -/
theorem pipeline_raises_only_on_document_open (w : World) (sm t tb im ep sg : Bool) :
    (∀ b m, w.openBytes b = .error m →
      (sync_extract_pdf w (.bytes b) sm t tb im ep sg).1 = .error (.corrupted m))
    ∧ (∀ p, validate_path w.cfg w.fs p true = .ok p → isFile w.fs p = false →
        (sync_extract_pdf w (.path p) sm t tb im ep sg).1
          = .error (.failedWrap (.fileNotFound p)))
    ∧ (∀ b doc, w.openBytes b = .ok doc →
        (sync_extract_pdf w (.bytes b) sm t tb im ep sg).1 = .ok (syncLoop doc t tb im ep sg)
        ∧ (t = true → ((syncLoop doc t tb im ep sg).text.getD []).length = doc.length)
        ∧ (sg = true → ((syncLoop doc t tb im ep sg).segments.getD []).length = doc.length)) := by
  refine ⟨?_, ?_, ?_⟩
  · intro b m hm
    simp [sync_extract_pdf, sync_extract_pdf_inner, hm]
  · intro p hv hf
    simp [sync_extract_pdf, sync_extract_pdf_inner, validate_path_enabled_irrel, hv, hf]
  · intro b doc hopen
    refine ⟨by simp [sync_extract_pdf, sync_extract_pdf_inner, hopen], ?_, ?_⟩
    · rintro rfl
      by_cases hd : doc = []
      · subst hd
        rfl
      · rw [syncLoop_text_some doc tb im ep sg hd]
        simp
    · rintro rfl
      by_cases hd : doc = []
      · subst hd
        rfl
      · rw [syncLoop_segments_some doc t tb im ep hd]
        simp

/-- C6 witness: corrupt bytes yield the one document-open error; a missing
sandboxed file yields the one file-not-found error; the concrete 2-page
document whose second page fails every extractor still yields a full result
with one text record per page. -/
theorem pipeline_raises_only_on_document_open_witness :
    (sync_extract_pdf wDocs (.bytes "zzz") true true true true true true).1
      = .error (.corrupted "oops")
    ∧ (sync_extract_pdf wDocs (.path ["base", "gone.pdf"]) true true true true true true).1
      = .error (.failedWrap (.fileNotFound ["base", "gone.pdf"]))
    ∧ (sync_extract_pdf wDocs (.bytes "good") true true true true true true).1
      = .ok (syncLoop [pgOk, pgBad] true true true true true)
    ∧ ((syncLoop [pgOk, pgBad] true true true true true).text.getD []).length = 2 := by
  have h := pipeline_raises_only_on_document_open wDocs true true true true true true
  have h3 := h.2.2 "good" [pgOk, pgBad] (by decide)
  exact ⟨h.1 "zzz" "oops" (by decide),
    h.2.1 ["base", "gone.pdf"] (by decide) (by decide),
    h3.1, h3.2.1 rfl⟩

/-- A page whose only text block holds a LaTeX-like marker, and whose table
scan fails. -/
def pgLatexAbort : Page :=
  { textE := .ok "", blocksE := .ok [⟨[0, 0, 1, 1], "x \\frac\x7by"⟩], imagesE := .ok []
    tablesE := .error "boom", drawingsE := .ok [], raster := .ok "" }

/-- C5 counterexample: the five classifier stages share one guard, so when
the table scan fails on a page whose text block holds the `\frac` marker,
the block's `text` segment is emitted but its `latex` segment is not — the
claim's "always yields both" fails on this page. -/
theorem latex_segment_missing_when_table_scan_fails :
    containsAnyLatex "x \\frac\x7by" = true
    ∧ extract_segments_from_page pgLatexAbort 0
      = ⟨1, [{ type := "text", content := "x \\frac\x7by", bbox := [0, 0, 1, 1] }]⟩ := by
  exact ⟨by decide, by decide⟩

/-- C5 (amended): on a page where no classifier stage's backend call fails,
every text block holding a LaTeX-like marker yields both a `text` segment
and a `latex` segment, with identical content and identical bbox. -/
theorem latex_block_yields_both_segments (pg : Page) (i : Nat)
    (bs : List Block) (imgs : List ImgOutcome) (tbls : List Tbl) (ds : List Drawing)
    (hb : pg.blocksE = .ok bs) (hi : pg.imagesE = .ok imgs)
    (ht : pg.tablesE = .ok tbls) (hd : pg.drawingsE = .ok ds)
    (b : Block) (hmem : b ∈ bs) (hm : containsAnyLatex b.text = true) :
    ({ type := "text", content := b.text, bbox := b.bbox } : Segment)
        ∈ (extract_segments_from_page pg i).segments
    ∧ ({ type := "latex", content := b.text, bbox := b.bbox } : Segment)
        ∈ (extract_segments_from_page pg i).segments := by
  simp only [extract_segments_from_page, hb, hi, ht, hd]
  constructor
  · exact List.mem_append_left _ (List.mem_append_left _ (List.mem_append_left _
      (List.mem_append_left _ (List.mem_map_of_mem _ hmem))))
  · exact List.mem_append_right _ (List.mem_map_of_mem _ (List.mem_filter.mpr ⟨hmem, hm⟩))

/-- A page whose single text block holds the `\sum_` marker and on which
every backend call succeeds. -/
def pgLatexOk : Page :=
  { textE := .ok "", blocksE := .ok [⟨[0, 0, 1, 1], "x \\sum_ y"⟩], imagesE := .ok []
    tablesE := .ok [], drawingsE := .ok [], raster := .ok "" }

/-- C5 witness: the amended theorem at the concrete marker-holding page. -/
theorem latex_block_yields_both_segments_witness :
    ({ type := "text", content := "x \\sum_ y", bbox := [0, 0, 1, 1] } : Segment)
        ∈ (extract_segments_from_page pgLatexOk 0).segments
    ∧ ({ type := "latex", content := "x \\sum_ y", bbox := [0, 0, 1, 1] } : Segment)
        ∈ (extract_segments_from_page pgLatexOk 0).segments :=
  latex_block_yields_both_segments pgLatexOk 0 [⟨[0, 0, 1, 1], "x \\sum_ y"⟩] [] [] []
    rfl rfl rfl rfl ⟨[0, 0, 1, 1], "x \\sum_ y"⟩ (by decide) (by decide)

theorem imgSegs_type (img : ImgOutcome) : ∀ s ∈ imgSegs img, s.type = "image" := by
  intro s hs
  cases img with
  | ok d o bb =>
    rw [List.mem_singleton.mp hs]
  | valueErr ob =>
    cases ob with
    | none => simp [imgSegs] at hs
    | some bb => rw [List.mem_singleton.mp hs]
  | noData => simp [imgSegs] at hs
  | fileDataErr => simp [imgSegs] at hs
  | otherErr => simp [imgSegs] at hs

theorem imgChunk_type (imgs : List ImgOutcome) :
    ∀ s ∈ (imgs.map imgSegs).flatten, s.type = "image" := by
  intro s hs
  rw [List.mem_flatten] at hs
  obtain ⟨l, hl, hsl⟩ := hs
  rw [List.mem_map] at hl
  obtain ⟨img, -, rfl⟩ := hl
  exact imgSegs_type img s hsl

/-- C8: within one page's segment list the insertion order follows the fixed
scan order — the list decomposes into a block of `text` segments, then
`image` segments, then `table`, then `chart`, then `latex` segments (stages
that never ran contribute empty blocks). -/
theorem segments_follow_stage_order (pg : Page) (i : Nat) :
    ∃ ts is2 tbs cs ls,
      (extract_segments_from_page pg i).segments = ts ++ is2 ++ tbs ++ cs ++ ls
      ∧ (∀ s ∈ ts, Segment.type s = "text") ∧ (∀ s ∈ is2, Segment.type s = "image")
      ∧ (∀ s ∈ tbs, Segment.type s = "table") ∧ (∀ s ∈ cs, Segment.type s = "chart")
      ∧ (∀ s ∈ ls, Segment.type s = "latex") := by
  cases hb : pg.blocksE with
  | error e =>
    refine ⟨[], [], [], [], [], by simp [extract_segments_from_page, hb],
      by simp, by simp, by simp, by simp, by simp⟩
  | ok bs =>
    have hts : ∀ s ∈ bs.map (fun b =>
        ({ type := "text", content := b.text, bbox := b.bbox } : Segment)), Segment.type s = "text" := by
      intro s hs
      rw [List.mem_map] at hs
      obtain ⟨b, -, rfl⟩ := hs
      rfl
    cases hi : pg.imagesE with
    | error e =>
      refine ⟨_, [], [], [], [], by simp [extract_segments_from_page, hb, hi],
        hts, by simp, by simp, by simp, by simp⟩
    | ok imgs =>
      cases ht : pg.tablesE with
      | error e =>
        refine ⟨_, _, [], [], [], by simp [extract_segments_from_page, hb, hi, ht],
          hts, imgChunk_type imgs, by simp, by simp, by simp⟩
      | ok tbls =>
        have htbs : ∀ s ∈ tbls.map (fun tb =>
            ({ type := "table", content := s!"Table ({tb.cells} cells)", bbox := tb.bbox } : Segment)),
            Segment.type s = "table" := by
          intro s hs
          rw [List.mem_map] at hs
          obtain ⟨tb, -, rfl⟩ := hs
          rfl
        cases hd : pg.drawingsE with
        | error e =>
          refine ⟨_, _, _, [], [], by simp [extract_segments_from_page, hb, hi, ht, hd],
            hts, imgChunk_type imgs, htbs, by simp, by simp⟩
        | ok ds =>
          refine ⟨_, _, _,
            (ds.filter (fun d => d.items > 10)).map (fun d =>
              ({ type := "chart", content := "Possible chart", bbox := d.rect } : Segment)),
            (bs.filter (fun b => containsAnyLatex b.text)).map (fun b =>
              ({ type := "latex", content := b.text, bbox := b.bbox } : Segment)),
            by simp [extract_segments_from_page, hb, hi, ht, hd],
            hts, imgChunk_type imgs, htbs, ?_, ?_⟩
          · intro s hs
            rw [List.mem_map] at hs
            obtain ⟨d, -, rfl⟩ := hs
            rfl
          · intro s hs
            rw [List.mem_map] at hs
            obtain ⟨b, -, rfl⟩ := hs
            rfl

theorem traverse_fold_eq (cfg : SafeModeConfig) (fs : List String → FSEntry) (sm : Bool)
    (l : List (List String)) (acc : List (List String)) :
    l.foldl (fun valid_files f =>
        match validate_path cfg fs f sm with
        | .ok file_path => valid_files ++ [file_path]
        | .error _ => valid_files) acc
      = acc ++ l.filterMap (fun f => (validate_path cfg fs f sm).toOption) := by
  induction l generalizing acc with
  | nil => simp
  | cons x xs ih =>
    rw [List.foldl_cons]
    cases hv : validate_path cfg fs x sm with
    | ok fp => simp [hv, ih, Except.toOption]
    | error e => simp [hv, ih, Except.toOption]

theorem extract_fold_eq (w : World) (dp : List String) (sm t tb im ep sg : Bool)
    (l : List (List String)) (acc : List (String × DocumentResult)) :
    l.foldl (fun extracted_data file_path =>
        match (sync_extract_pdf w (.path file_path) sm t tb im ep sg).1 with
        | .ok extracted_content =>
          match relativeTo file_path dp with
          | .ok rel => extracted_data ++ [(pathStr rel, extracted_content)]
          | .error _ => extracted_data
        | .error _ => extracted_data) acc
      = acc ++ l.filterMap (fun file_path =>
          match (sync_extract_pdf w (.path file_path) sm t tb im ep sg).1 with
          | .ok extracted_content =>
            match relativeTo file_path dp with
            | .ok rel => some (pathStr rel, extracted_content)
            | .error _ => none
          | .error _ => none) := by
  induction l generalizing acc with
  | nil => simp
  | cons x xs ih =>
    rw [List.foldl_cons]
    cases hr : (sync_extract_pdf w (.path x) sm t tb im ep sg).1 with
    | ok c =>
      cases hrel : relativeTo x dp with
      | ok rel => simp [hr, hrel, ih]
      | error e => simp [hr, hrel, ih]
    | error e => simp [hr, ih]

/-- C7: over a validated root directory, the walk's result is exactly the
walked files that pass individual sandbox validation and process
successfully, keyed by path relative to the scanned root: a file failing
validation is skipped, a document whose processing fails is omitted with no
error entry, and neither aborts the walk. -/
theorem directory_walk_skips_and_omits (w : World) (dp : List String)
    (sm t tb im ep sg : Bool) (d : List String)
    (hv : validate_path w.cfg w.fs dp sm = .ok d) (hd : isDir w.fs d = true) :
    sync_extract_pdfs_from_directory w dp sm t tb im ep sg
      = .ok (((w.walk d).filterMap
            (fun f => (validate_path w.cfg w.fs f sm).toOption)).filterMap
          (fun file_path =>
            match (sync_extract_pdf w (.path file_path) sm t tb im ep sg).1 with
            | .ok extracted_content =>
              match relativeTo file_path dp with
              | .ok rel => some (pathStr rel, extracted_content)
              | .error _ => none
            | .error _ => none)) := by
  unfold sync_extract_pdfs_from_directory traverse_directory
  rw [hv]
  simp only [hd, not_true, if_false]
  rw [traverse_fold_eq, extract_fold_eq]
  simp

/-- A filesystem rooted at `root/` holding two valid documents, one file
with a disallowed extension, and one corrupt document. -/
def fsWalk : List String → FSEntry := fun p =>
  if p = ["root"] then .dir
  else if p = ["root", "a.pdf"] then .file (.ok [])
  else if p = ["root", "c.txt"] then .file (.ok [])
  else if p = ["root", "bad.pdf"] then .file (.error "corrupt")
  else if p = ["root", "sub", "b.pdf"] then .file (.ok [])
  else .missing

/-- A world walking `root/` in a fixed order. -/
def wWalk : World :=
  { cfg := { enabled := true, base_directory := ["root"], allowed_extensions := [".pdf"] }
    fs := fsWalk
    walk := fun p =>
      if p = ["root"] then
        [["root", "a.pdf"], ["root", "c.txt"], ["root", "bad.pdf"], ["root", "sub", "b.pdf"]]
      else []
    openBytes := fun _ => .error "x" }

/-- C7 witness: the concrete root with 2 valid documents, 1 disallowed
extension and 1 corrupt document yields exactly the 2 valid documents'
keys, relative to the root — no entry for the skipped or failing files. -/
theorem directory_walk_skips_and_omits_witness :
    sync_extract_pdfs_from_directory wWalk ["root"] true true true true true true
      = .ok [("a.pdf", {}), ("sub/b.pdf", {})] := by
  have h := directory_walk_skips_and_omits wWalk ["root"] true true true true true true
    ["root"] (by decide) (by decide)
  exact h.trans (by decide)

end MissingText
